import Mathlib

/-!
Verification of the background-task scheduling subsystem of oh-my-opencode
(`src/features/background-agent`): the concurrency admission gate, the task
registry and its lifecycle (completion, stall-watchdog cancellation, resume),
the parent/child task tree, the retention pruner, and the completion
notification body.

The registry helpers (`getTasksByParentSession`, `getAllDescendantTasks`,
`pruneStaleTasksAndNotifications`, `resume` of the mock registry,
`buildNotificationPromptBody`) are translated from
`src/features/background-agent/manager.test.ts`.  The `BackgroundManager` /
`ConcurrencyManager` class bodies (`manager.ts`, `concurrency.ts`) are not part
of the available sources; the definitions for those are modelled from the
specification and are marked as such in their doc comments.

Machine integers do not overflow in any path modelled here (timestamps and
counters stay far below 2^53), so times and counters are embedded as `Int`.
-/

/-- Status of a background task: `running`, `completed` or `cancelled`. -/
inductive TaskStatus where
  | running
  | completed
  | cancelled
deriving DecidableEq, Repr

/-- A fully specified model reference: provider plus model name. -/
structure ModelRef where
  providerID : String
  modelID : String
deriving DecidableEq, Repr

/-- Progress snapshot of a task, updated by the execution collaborator. -/
structure Progress where
  toolCalls : Nat
  lastTool : Option String := none
  lastUpdate : Int
deriving DecidableEq, Repr

/-- A background task record, translated from the `BackgroundTask` shape used
throughout `manager.test.ts`.  Timestamps are milliseconds since the epoch. -/
structure BackgroundTask where
  id : String
  sessionID : String
  parentSessionID : String
  parentMessageID : String
  description : String
  prompt : String
  agent : String
  status : TaskStatus
  startedAt : Int
  completedAt : Option Int := none
  error : Option String := none
  concurrencyKey : Option String := none
  concurrencyGroup : Option String := none
  progress : Option Progress := none
  parentAgent : Option String := none
  parentModel : Option ModelRef := none
  model : Option ModelRef := none
deriving DecidableEq, Repr

/-! ### Association lists

JavaScript `Map`s preserve insertion order; they are embedded as association
lists where `set` updates in place (keeping position) or appends at the end,
exactly like `Map.prototype.set`. -/

/-- Lookup in an insertion-ordered association list (`Map.prototype.get`). -/
def alist.get? {α : Type} : List (String × α) → String → Option α
  | [], _ => none
  | (k', v) :: rest, k => if k' = k then some v else alist.get? rest k

/-- Update-or-append in an insertion-ordered association list
(`Map.prototype.set`). -/
def alist.set {α : Type} : List (String × α) → String → α → List (String × α)
  | [], k, v => [(k, v)]
  | (k', v') :: rest, k, v =>
    if k' = k then (k, v) :: rest else (k', v') :: alist.set rest k v

theorem alist.get?_set_self {α : Type} (l : List (String × α)) (k : String) (v : α) :
    alist.get? (alist.set l k v) k = some v := by
  induction l with
  | nil => simp [alist.set, alist.get?]
  | cons p rest ih =>
    by_cases h : p.fst = k
    · simp [alist.set, alist.get?, h]
    · simp [alist.set, alist.get?, h, ih]

theorem alist.get?_set_ne {α : Type} (l : List (String × α)) (k k' : String) (v : α)
    (h : k ≠ k') : alist.get? (alist.set l k v) k' = alist.get? l k' := by
  induction l with
  | nil => simp [alist.set, alist.get?, h]
  | cons p rest ih =>
    by_cases hp : p.fst = k
    · simp [alist.set, alist.get?, hp, h]
    · simp [alist.set, alist.get?, hp, ih]

/-! ### Concurrency Admission Gate

Modelled from the spec: `concurrency.ts` (the `ConcurrencyManager` class) is
not among the available sources — only its tests and callers are.  Spec §4.1: a
keyed semaphore; `acquire(key)` suspends when no slot is free (the suspended
caller is recorded in a FIFO waiter queue), `release(key)` transfers the slot
to the earliest waiter if any, otherwise decrements the held count, and is a
no-op at zero; capacity is per key with a configurable default. -/

/-- Modelled from the spec: state of the keyed-semaphore admission gate
(`ConcurrencyManager`).  `counts` is the held-slot count per key, `waiters`
the FIFO queue of suspended acquirers per key (identified by tokens). -/
structure ConcurrencyManager where
  defaultConcurrency : Nat
  limits : List (String × Nat)
  counts : List (String × Int)
  waiters : List (String × List Nat)
deriving DecidableEq, Repr

/-- Modelled from the spec: a fresh gate with the given default capacity and
per-key limits; no slot held, no waiter. -/
def ConcurrencyManager.init (d : Nat) (limits : List (String × Nat)) : ConcurrencyManager :=
  { defaultConcurrency := d, limits := limits, counts := [], waiters := [] }

/-- Held-slot count for a key (`getCount`). -/
def ConcurrencyManager.getCount (g : ConcurrencyManager) (k : String) : Int :=
  (alist.get? g.counts k).getD 0

/-- Capacity for a key: its explicit limit, or the default. -/
def ConcurrencyManager.capacityOf (g : ConcurrencyManager) (k : String) : Nat :=
  (alist.get? g.limits k).getD g.defaultConcurrency

/-- FIFO waiter queue for a key. -/
def ConcurrencyManager.waitersOf (g : ConcurrencyManager) (k : String) : List Nat :=
  (alist.get? g.waiters k).getD []

/-- Modelled from the spec: `acquire(key)` by waiter token `w`.  Returns the
new gate and whether the slot was granted immediately; when the key is at
capacity the caller is appended to the key's FIFO waiter queue and suspends
(`false`). -/
def ConcurrencyManager.acquire (g : ConcurrencyManager) (k : String) (w : Nat) :
    ConcurrencyManager × Bool :=
  if g.getCount k < (g.capacityOf k : Int) then
    ({ g with counts := alist.set g.counts k (g.getCount k + 1) }, true)
  else
    ({ g with waiters := alist.set g.waiters k (g.waitersOf k ++ [w]) }, false)

/-- Modelled from the spec: `release(key)`.  If a waiter is queued, the slot
transfers to the earliest waiter (returned as `some w`, the count unchanged);
otherwise the count is decremented, except that releasing at zero held slots
is a no-op. -/
def ConcurrencyManager.release (g : ConcurrencyManager) (k : String) :
    ConcurrencyManager × Option Nat :=
  match g.waitersOf k with
  | w :: ws => ({ g with waiters := alist.set g.waiters k ws }, some w)
  | [] =>
    if 0 < g.getCount k then
      ({ g with counts := alist.set g.counts k (g.getCount k - 1) }, none)
    else
      (g, none)

/-- An external call against the gate: an acquire by some waiter token, or a
release. -/
inductive GateOp where
  | acquireOp (k : String) (w : Nat)
  | releaseOp (k : String)
deriving DecidableEq, Repr

/-- Apply one gate call. -/
def ConcurrencyManager.applyOp (g : ConcurrencyManager) : GateOp → ConcurrencyManager
  | .acquireOp k w => (g.acquire k w).fst
  | .releaseOp k => (g.release k).fst

/-- Apply a sequence of gate calls in order. -/
def ConcurrencyManager.applyOps (g : ConcurrencyManager) (ops : List GateOp) :
    ConcurrencyManager :=
  ops.foldl ConcurrencyManager.applyOp g

/-- All held counts of the gate are non-negative. -/
def ConcurrencyManager.nonneg (g : ConcurrencyManager) : Prop :=
  ∀ k, 0 ≤ g.getCount k

theorem ConcurrencyManager.getCount_init (d : Nat) (limits : List (String × Nat)) (k : String) :
    (ConcurrencyManager.init d limits).getCount k = 0 := by
  simp [ConcurrencyManager.init, ConcurrencyManager.getCount, alist.get?]

theorem ConcurrencyManager.nonneg_applyOp (g : ConcurrencyManager) (op : GateOp)
    (h : g.nonneg) : (g.applyOp op).nonneg := by
  intro k
  cases op with
  | acquireOp k' w =>
    simp only [ConcurrencyManager.applyOp, ConcurrencyManager.acquire]
    split
    · by_cases hk : k' = k
      · subst hk
        simpa [ConcurrencyManager.getCount, alist.get?_set_self] using
          add_nonneg (h k') (by norm_num)
      · simpa [ConcurrencyManager.getCount, alist.get?_set_ne _ _ _ _ hk] using h k
    · exact h k
  | releaseOp k' =>
    simp only [ConcurrencyManager.applyOp, ConcurrencyManager.release]
    split
    · exact h k
    · split
      · by_cases hk : k' = k
        · subst hk
          have hpos : 0 < g.getCount k' := by assumption
          simp only [ConcurrencyManager.getCount] at hpos ⊢
          simp only [alist.get?_set_self, Option.getD_some]
          omega
        · simpa [ConcurrencyManager.getCount, alist.get?_set_ne _ _ _ _ hk] using h k
      · exact h k

theorem ConcurrencyManager.nonneg_applyOps (g : ConcurrencyManager) (ops : List GateOp)
    (h : g.nonneg) : (g.applyOps ops).nonneg := by
  induction ops generalizing g with
  | nil => simpa [ConcurrencyManager.applyOps] using h
  | cons op rest ih =>
    simpa [ConcurrencyManager.applyOps, List.foldl_cons] using
      ih (g.applyOp op) (ConcurrencyManager.nonneg_applyOp g op h)

/-! ### The task registry (`MockBackgroundManager` in `manager.test.ts`)

Translated from the source: the registry keeps an insertion-ordered map of
tasks keyed by task id, a map of pending-notification queues keyed by parent
session id, and the log of resume calls forwarded to the execution
collaborator. -/

/-- Registry state of `MockBackgroundManager`:  `tasks` (task id → task),
`notifications` (parent session id → FIFO queue of completed tasks), and
`resumeCalls` (the `(sessionId, prompt)` pairs pushed when a resume actually
restarts work). -/
structure MockState where
  tasks : List (String × BackgroundTask)
  notifications : List (String × List BackgroundTask)
  resumeCalls : List (String × String)
deriving DecidableEq, Repr

/-- The registry's tasks in iteration (insertion) order (`tasks.values()`). -/
def MockState.taskValues (st : MockState) : List BackgroundTask :=
  st.tasks.map Prod.snd

/-- Source `addTask`: register a task under its id. -/
def MockState.addTask (st : MockState) (t : BackgroundTask) : MockState :=
  { st with tasks := alist.set st.tasks t.id t }

/-- Source `findBySession`: first task (in iteration order) whose execution session
id matches. -/
def MockState.findBySession (st : MockState) (sessionID : String) : Option BackgroundTask :=
  st.taskValues.find? (fun t => t.sessionID == sessionID)

/-- Source `getTasksByParentSession`: the direct (one-hop) children of a session. -/
def MockState.getTasksByParentSession (st : MockState) (sessionID : String) :
    List BackgroundTask :=
  st.taskValues.filter (fun t => t.parentSessionID == sessionID)

/-- One layer of `getAllDescendantTasks`: for each direct child push the child
followed by its own descendants, where `rec` performs the recursive call.
(Helper for the fuelled embedding below.) -/
def gadtStep (rec : String → Option (List BackgroundTask)) :
    List BackgroundTask → Option (List BackgroundTask)
  | [] => some []
  | c :: cs => do
    let d ← rec c.sessionID
    let r ← gadtStep rec cs
    pure (c :: (d ++ r))

/-- Source `getAllDescendantTasks`, embedded with explicit fuel: the source function
recurses over the `parentSessionID` edge with no cycle guard, so its
evaluation is totalised by fuel; `none` means the source recursion has not
terminated within `fuel` nested calls.  The source call terminates with value
`l` exactly when some fuel yields `some l` (the result is then stable for all
larger fuels). -/
def getAllDescendantTasks : Nat → MockState → String → Option (List BackgroundTask)
  | 0, _, _ => none
  | Nat.succ fuel, st, s =>
    gadtStep (fun s' => getAllDescendantTasks fuel st s') (st.getTasksByParentSession s)

/-- Source `markForNotification`: append the task to its parent session's queue. -/
def MockState.markForNotification (st : MockState) (t : BackgroundTask) : MockState :=
  { st with
    notifications :=
      alist.set st.notifications t.parentSessionID
        (((alist.get? st.notifications t.parentSessionID).getD []) ++ [t]) }

/-- Total number of queued notifications (`getNotificationCount`). -/
def MockState.getNotificationCount (st : MockState) : Nat :=
  (st.notifications.map (fun p => p.snd.length)).sum

/-- The task retention window: 30 minutes (`TASK_TTL_MS`). -/
def TASK_TTL_MS : Int := 30 * 60 * 1000

/-- Source `clearNotificationsForTask`: walk the notification queues in order; in
each queue drop every entry carrying the given task id, deleting the queue
when it becomes empty. -/
def clearNotificationsForTask : List (String × List BackgroundTask) → String →
    List (String × List BackgroundTask)
  | [], _ => []
  | (sid, q) :: rest, taskId =>
    let filtered := q.filter (fun t => t.id ≠ taskId)
    if filtered.isEmpty then clearNotificationsForTask rest taskId
    else (sid, filtered) :: clearNotificationsForTask rest taskId

/-- First loop of `pruneStaleTasksAndNotifications`: walk the task entries in
order; a task whose age strictly exceeds the window is recorded, its
notifications are cleared, and it is deleted; others are kept. -/
def pruneTasksLoop (now : Int) :
    List (String × BackgroundTask) → List (String × List BackgroundTask) →
    List (String × BackgroundTask) × List (String × List BackgroundTask) × List String
  | [], notifs => ([], notifs, [])
  | (id, t) :: rest, notifs =>
    if now - t.startedAt > TASK_TTL_MS then
      let res := pruneTasksLoop now rest (clearNotificationsForTask notifs id)
      (res.1, res.2.1, id :: res.2.2)
    else
      let res := pruneTasksLoop now rest notifs
      ((id, t) :: res.1, res.2.1, res.2.2)

/-- Second loop of `pruneStaleTasksAndNotifications`: walk the remaining
notification queues; already-empty queues are deleted without counting, stale
entries (age strictly over the window) are dropped and counted, and queues
left empty are deleted. -/
def pruneNotifsLoop (now : Int) :
    List (String × List BackgroundTask) → List (String × List BackgroundTask) × Nat
  | [] => ([], 0)
  | (sid, q) :: rest =>
    let res := pruneNotifsLoop now rest
    if q.isEmpty then
      res
    else
      let valid := q.filter (fun t => now - t.startedAt ≤ TASK_TTL_MS)
      let removed := q.length - valid.length
      if valid.isEmpty then
        (res.1, res.2 + removed)
      else
        ((sid, valid) :: res.1, res.2 + removed)

/-- Source `pruneStaleTasksAndNotifications` at time `now`: returns the new registry
state, the pruned task ids, and the reported pruned-notification count. -/
def MockState.pruneStaleTasksAndNotifications (st : MockState) (now : Int) :
    MockState × List String × Nat :=
  let r1 := pruneTasksLoop now st.tasks st.notifications
  let r2 := pruneNotifsLoop now r1.2.1
  ({ st with tasks := r1.1, notifications := r2.1 }, r1.2.2, r2.2)

/-- Input of `resume`. -/
structure ResumeInput where
  sessionId : String
  prompt : String
  parentSessionID : String
  parentMessageID : String
  parentModel : Option ModelRef := none
deriving DecidableEq, Repr

/-- Source `MockBackgroundManager.resume` at time `now`: fails naming the session id
when no task exists for it; returns the unchanged task (and registry) when
the task is already running; otherwise logs the resume call, resets the task
to running, clears `completedAt` and `error`, overwrites the parent context,
and rebuilds `progress` keeping the accumulated `toolCalls`. -/
def MockState.resume (st : MockState) (now : Int) (input : ResumeInput) :
    Except String (MockState × BackgroundTask) :=
  match st.findBySession input.sessionId with
  | none => .error ("Task not found for session: " ++ input.sessionId)
  | some t =>
    if t.status = .running then
      .ok (st, t)
    else
      let t' : BackgroundTask :=
        { t with
          status := .running
          completedAt := none
          error := none
          parentSessionID := input.parentSessionID
          parentMessageID := input.parentMessageID
          parentModel := input.parentModel
          progress := some { toolCalls := ((t.progress.map Progress.toolCalls).getD 0),
                             lastTool := none, lastUpdate := now } }
      .ok ({ st with
             tasks := alist.set st.tasks t.id t'
             resumeCalls := st.resumeCalls ++ [(input.sessionId, input.prompt)] }, t')

/-! ### Completion-notification body (`buildNotificationPromptBody`)

Translated from the source helper in `manager.test.ts`: the agent is the
origin session's current-message agent when present (JavaScript `??`), else
the task's stored `parentAgent`; the model is included only when the
current message carries a model whose `providerID` and `modelID` are both
present and non-empty (JavaScript `&&` truthiness), and is then that model. -/

/-- A possibly partially specified model as found on a live session message. -/
structure CurrentMessageModel where
  providerID : Option String := none
  modelID : Option String := none
deriving DecidableEq, Repr

/-- The origin session's last live message: optional agent, optional
(possibly partial) model. -/
structure CurrentMessage where
  agent : Option String := none
  model : Option CurrentMessageModel := none
deriving DecidableEq, Repr

/-- The notification prompt body: the text part plus the optional `agent` and
`model` keys (`none` = the key is absent from the body). -/
structure PromptBody where
  text : String
  agent : Option String := none
  model : Option ModelRef := none
deriving DecidableEq, Repr

/-- Source helper `buildNotificationPromptBody` from `manager.test.ts`. -/
def buildNotificationPromptBody (task : BackgroundTask) (cm : Option CurrentMessage) :
    PromptBody :=
  let agent := match cm.bind CurrentMessage.agent with
    | some a => some a
    | none => task.parentAgent
  let model := match cm.bind CurrentMessage.model with
    | some m =>
      match m.providerID, m.modelID with
      | some p, some mid =>
        if p = "" ∨ mid = "" then none
        else some { providerID := p, modelID := mid }
      | some _, none => none
      | none, _ => none
    | none => none
  { text := "[BACKGROUND TASK COMPLETED] Task \"" ++ task.description ++ "\" finished.",
    agent := agent, model := model }

/-! ### Spec-modelled lifecycle manager (`BackgroundManager`)

`manager.ts` is not among the available sources (only `manager.test.ts` is),
so the class's own operations are modelled from the spec, §4.2–§4.5. -/

/-- Modelled from the spec: the manager's state relevant to admission and the
task registry — its admission gate plus the task map.  The key a task
acquired at launch is remembered in the task's `concurrencyGroup` field (the
task's "previously stored concurrencyKey" of spec §4.2), which survives the
clearing of `concurrencyKey` on completion so that resume can re-acquire it. -/
structure ManagerState where
  gate : ConcurrencyManager
  tasks : List (String × BackgroundTask)
deriving DecidableEq, Repr

/-- Modelled from the spec (§4.2 `tryCompleteTask`): a guarded
running→completed transition at time `now`.  If the task is not running (or
unknown) it returns `false` with no side effect; otherwise it marks the task
completed, sets `completedAt`, releases the held `concurrencyKey` and clears
it from the task — all before notification delivery (which touches neither
the gate nor the task record) is attempted — and returns `true`. -/
def tryCompleteTask (st : ManagerState) (taskId : String) (now : Int) :
    Bool × ManagerState :=
  match alist.get? st.tasks taskId with
  | none => (false, st)
  | some t =>
    if t.status = .running then
      let gate' := match t.concurrencyKey with
        | some k => (st.gate.release k).fst
        | none => st.gate
      let t' : BackgroundTask :=
        { t with status := .completed, completedAt := some now, concurrencyKey := none }
      (true, { gate := gate', tasks := alist.set st.tasks taskId t' })
    else
      (false, st)

/-- Modelled from the spec (§4.3): watchdog timing policy with its defaults —
3 minutes of allowed inactivity, 30 seconds of minimum runtime. -/
structure WatchdogConfig where
  staleTimeoutMs : Int := 180000
  minRuntimeGuardMs : Int := 30000
deriving DecidableEq, Repr

/-- Modelled from the spec (§4.3): a running task is stale exactly when both
`idle > staleTimeoutMs` and `age > minRuntimeGuardMs`, with
`age = now - startedAt` and `idle = now - progress.lastUpdate` (a task that
never reported progress idles since `startedAt`). -/
def isStale (cfg : WatchdogConfig) (now : Int) (t : BackgroundTask) : Bool :=
  t.status = .running ∧
    now - ((t.progress.map Progress.lastUpdate).getD t.startedAt) > cfg.staleTimeoutMs ∧
    now - t.startedAt > cfg.minRuntimeGuardMs

/-- Modelled from the spec (§4.3): the stale-timeout error message, naming the
configured threshold in minutes. -/
def staleErrorMessage (cfg : WatchdogConfig) : String :=
  "Stale timeout: no progress for over " ++ toString (cfg.staleTimeoutMs / 60000) ++ "min"

/-- Modelled from the spec (§4.3): the watchdog's action on one scanned task —
when stale, release the held slot and clear `concurrencyKey` (before the
external abort call, which touches neither the gate nor the task record),
mark the task cancelled with `completedAt = now` and the stale-timeout error;
otherwise leave gate and task untouched. -/
def watchdogScanTask (cfg : WatchdogConfig) (now : Int) (g : ConcurrencyManager)
    (t : BackgroundTask) : ConcurrencyManager × BackgroundTask :=
  if isStale cfg now t then
    let g' := match t.concurrencyKey with
      | some k => (g.release k).fst
      | none => g
    (g', { t with status := .cancelled, completedAt := some now,
                  error := some (staleErrorMessage cfg), concurrencyKey := none })
  else
    (g, t)

/-- Modelled from the spec (§4.3): one watchdog poll cycle scans every
registered task independently, threading the gate through the scans. -/
def checkAndInterruptStaleTasks (cfg : WatchdogConfig) (now : Int) :
    ConcurrencyManager → List (String × BackgroundTask) →
    ConcurrencyManager × List (String × BackgroundTask)
  | g, [] => (g, [])
  | g, (id, t) :: rest =>
    let r := watchdogScanTask cfg now g t
    let rec' := checkAndInterruptStaleTasks cfg now r.1 rest
    (rec'.1, (id, r.2) :: rec'.2)

/-- Modelled from the spec (§4.2 `resume`): at time `now`, fail with a
not-found error naming the session id when no task exists for it; return the
unchanged task and state when it is already running; otherwise re-acquire the
admission gate on the task's previously stored key (none stored — no
re-acquisition), reset the task to running with `completedAt`/`error`
cleared, the new parent context installed, the stored key held again as its
`concurrencyKey`, and the accumulated `progress.toolCalls` preserved.
The record below is the resumed form of a terminal task; `resumeManager`
after it is the operation itself. -/
def resumedTask (t : BackgroundTask) (now : Int) (input : ResumeInput) : BackgroundTask :=
  { t with
    status := .running
    completedAt := none
    error := none
    concurrencyKey := t.concurrencyGroup
    parentSessionID := input.parentSessionID
    parentMessageID := input.parentMessageID
    parentModel := input.parentModel
    progress := some { toolCalls := ((t.progress.map Progress.toolCalls).getD 0),
                       lastTool := none, lastUpdate := now } }

def resumeManager (st : ManagerState) (now : Int) (input : ResumeInput) :
    Except String (ManagerState × BackgroundTask) :=
  match (st.tasks.map Prod.snd).find? (fun t => t.sessionID == input.sessionId) with
  | none => .error ("Task not found for session: " ++ input.sessionId)
  | some t =>
    if t.status = .running then
      .ok (st, t)
    else
      let gate' := match t.concurrencyGroup with
        | some k => (st.gate.acquire k 0).fst
        | none => st.gate
      .ok ({ gate := gate', tasks := alist.set st.tasks t.id (resumedTask t now input) },
        resumedTask t now input)

/-! ### Termination-path event traces

Modelled from the spec (§4.2, §4.3, §5): the observable order of operations on
each path that moves a task out of (or back into) the running state.  The gate
operations (release on completion and cancellation, re-acquisition on resume)
must all come strictly before the first operation that might block or hang
(the notification prompt, the external abort call). -/

/-- An observable scheduler event on a termination/resume path. -/
inductive SchedulerEvent where
  | releaseSlot (k : String)
  | acquireSlot (k : String)
  | clearKey
  | setStatus (s : TaskStatus)
  | setCompletedAt
  | promptCall
  | abortCall
deriving DecidableEq, Repr

/-- Events that may block or hang: the notification prompt and the external
abort call. -/
def isBlockingEvent : SchedulerEvent → Bool
  | .promptCall => true
  | .abortCall => true
  | _ => false

/-- Events that operate on the admission gate's slots. -/
def isSlotEvent : SchedulerEvent → Bool
  | .releaseSlot _ => true
  | .acquireSlot _ => true
  | _ => false

/-- Modelled from the spec (§4.2): the completion path for a task holding key
`k` — mark completed, release and clear the slot, then (and only then)
deliver the notification prompt. -/
def completionTrace (k : String) : List SchedulerEvent :=
  [.setStatus .completed, .setCompletedAt, .releaseSlot k, .clearKey, .promptCall]

/-- Modelled from the spec (§4.3): the watchdog cancellation path for a task
holding key `k` — release and clear the slot first, record the cancellation,
then (and only then) issue the external abort call. -/
def watchdogCancelTrace (k : String) : List SchedulerEvent :=
  [.releaseSlot k, .clearKey, .setStatus .cancelled, .setCompletedAt, .abortCall]

/-- Modelled from the spec (§4.2): the resume path for a task whose stored key
is `k` — re-acquire the slot and reset the task before the resume prompt is
sent to the execution collaborator. -/
def resumeTrace (k : String) : List SchedulerEvent :=
  [.acquireSlot k, .setStatus .running, .promptCall]

/-- No gate-slot operation occurs at or after any blocking event of the
trace; equivalently, every slot operation strictly precedes every operation
that might block or hang. -/
def slotOpsPrecedeBlocking : List SchedulerEvent → Bool
  | [] => true
  | e :: rest =>
    (if isBlockingEvent e then rest.all (fun x => ¬ isSlotEvent x) && ¬ isSlotEvent e
     else true) && slotOpsPrecedeBlocking rest

/-- Run the gate over one event, accumulating the waiter tokens granted a
slot so far. -/
def applyEventG (acc : ConcurrencyManager × List Nat) (e : SchedulerEvent) :
    ConcurrencyManager × List Nat :=
  match e with
  | .releaseSlot k =>
    let r := acc.1.release k
    (r.1, acc.2 ++ r.2.toList)
  | .acquireSlot k => ((acc.1.acquire k 0).fst, acc.2)
  | _ => acc

/-- Run the gate over the prefix of a trace that comes strictly before its
first blocking event: the state of the gate, and who has been granted a slot,
at the moment the possibly-hanging call starts. -/
def runUntilBlocking (g : ConcurrencyManager) (tr : List SchedulerEvent) :
    ConcurrencyManager × List Nat :=
  (tr.takeWhile (fun e => ¬ isBlockingEvent e)).foldl applyEventG (g, [])

/-! ## Claims -/

/-- Claim C4: for every key `k` on the admission gate — while the key is at
capacity a further `acquire(k)` does not resolve (the caller is appended to
the key's FIFO waiter queue, the count unchanged); `release(k)` grants the
slot to the earliest waiter for `k`; `release(k)` with zero held slots is a
no-op; and under any sequence of acquire and release calls from a fresh gate
the held count reported by `getCount` is never negative. -/
theorem C4_admission_gate (g : ConcurrencyManager) (k : String) (w : Nat) :
    (((g.capacityOf k : Int) ≤ g.getCount k) →
      (g.acquire k w).snd = false ∧
      ((g.acquire k w).fst).waitersOf k = g.waitersOf k ++ [w] ∧
      ((g.acquire k w).fst).getCount k = g.getCount k) ∧
    (∀ w0 ws, g.waitersOf k = w0 :: ws →
      (g.release k).snd = some w0 ∧
      ((g.release k).fst).waitersOf k = ws ∧
      ((g.release k).fst).getCount k = g.getCount k) ∧
    ((g.waitersOf k = [] ∧ g.getCount k = 0) → g.release k = (g, none)) ∧
    (∀ (d : Nat) (limits : List (String × Nat)) (ops : List GateOp) (k' : String),
      0 ≤ ((ConcurrencyManager.init d limits).applyOps ops).getCount k') := by
  refine ⟨?_, ?_, ?_, ?_⟩
  · intro hfull
    have hnot : ¬ g.getCount k < (g.capacityOf k : Int) := not_lt.mpr hfull
    have hacq : g.acquire k w =
        ({ g with waiters := alist.set g.waiters k (g.waitersOf k ++ [w]) }, false) := by
      simp [ConcurrencyManager.acquire, hnot]
    refine ⟨by simp [hacq], ?_, ?_⟩
    · simp [hacq, ConcurrencyManager.waitersOf, alist.get?_set_self]
    · simp [hacq, ConcurrencyManager.getCount]
  · intro w0 ws hw
    have hrel : g.release k =
        ({ g with waiters := alist.set g.waiters k ws }, some w0) := by
      simp [ConcurrencyManager.release, hw]
    refine ⟨by simp [hrel], ?_, ?_⟩
    · simp [hrel, ConcurrencyManager.waitersOf, alist.get?_set_self]
    · simp [hrel, ConcurrencyManager.getCount]
  · rintro ⟨hw, hc⟩
    simp [ConcurrencyManager.release, hw, hc]
  · intro d limits ops k'
    exact ConcurrencyManager.nonneg_applyOps _ ops
      (fun k'' => by simp [ConcurrencyManager.getCount_init]) k'

/-- Concrete gate used to witness claim C4: capacity 1 for `"explore"`, one
slot held, waiter token `5` queued. -/
def gateW : ConcurrencyManager :=
  { defaultConcurrency := 1, limits := [], counts := [("explore", 1)],
    waiters := [("explore", [5])] }

/-- Witness for claim C4 at the concrete gate `gateW`: the extra acquire does
not resolve, release grants waiter `5`, and release on the idle key
`"other"` is a no-op. -/
theorem C4_admission_gate_witness :
    (gateW.acquire "explore" 9).snd = false ∧
    (gateW.release "explore").snd = some 5 ∧
    gateW.release "other" = (gateW, none) := by
  refine ⟨((C4_admission_gate gateW "explore" 9).1 (by decide)).1,
    (((C4_admission_gate gateW "explore" 9).2.1) 5 [] (by decide)).1,
    ((C4_admission_gate gateW "other" 9).2.2.1) (by decide)⟩

/-- Claim C2: a running task holding a concurrency key completes exactly
once — the first `tryCompleteTask` returns `true`, marks it completed, clears
the task's `concurrencyKey` and drops the key's held count by one; a second
call on the now-terminal task returns `false`, changes no state, and does not
release the slot again. -/
theorem C2_tryCompleteTask_exactly_once (st : ManagerState) (id : String)
    (t : BackgroundTask) (k : String) (now now2 : Int)
    (hget : alist.get? st.tasks id = some t)
    (hrun : t.status = .running)
    (hkey : t.concurrencyKey = some k)
    (hnowait : st.gate.waitersOf k = [])
    (hpos : 0 < st.gate.getCount k) :
    (tryCompleteTask st id now).fst = true ∧
    (∃ t', alist.get? (tryCompleteTask st id now).snd.tasks id = some t' ∧
      t'.status = .completed ∧ t'.concurrencyKey = none ∧ t'.completedAt = some now) ∧
    (tryCompleteTask st id now).snd.gate.getCount k = st.gate.getCount k - 1 ∧
    (tryCompleteTask (tryCompleteTask st id now).snd id now2 =
      (false, (tryCompleteTask st id now).snd)) := by
  have hrel : st.gate.release k =
      ({ st.gate with counts := alist.set st.gate.counts k (st.gate.getCount k - 1) },
        none) := by
    simp [ConcurrencyManager.release, hnowait, hpos]
  have h1 : tryCompleteTask st id now =
      (true, { gate := (st.gate.release k).fst,
               tasks := alist.set st.tasks id
                 { t with status := .completed, completedAt := some now,
                          concurrencyKey := none } }) := by
    simp [tryCompleteTask, hget, hrun, hkey]
  have h2 : alist.get? (tryCompleteTask st id now).snd.tasks id =
      some { t with status := .completed, completedAt := some now,
                    concurrencyKey := none } := by
    simp [h1, alist.get?_set_self]
  refine ⟨by simp [h1], ⟨_, h2, rfl, rfl, rfl⟩, ?_, ?_⟩
  · simp [h1, hrel, ConcurrencyManager.getCount, alist.get?_set_self]
  · have h3 : alist.get? (alist.set st.tasks id
        { t with status := .completed, completedAt := some now,
                 concurrencyKey := none }) id =
        some { t with status := .completed, completedAt := some now,
                      concurrencyKey := none } :=
      alist.get?_set_self _ _ _
    conv_lhs => rw [h1]
    rw [h1]
    simp only [tryCompleteTask, h3]
    rfl

/-- Concrete task used to witness claim C2: running and holding one slot of
key `"anthropic/claude-opus-4-5"`. -/
def taskW2 : BackgroundTask :=
  { id := "task-1", sessionID := "session-1", parentSessionID := "session-parent",
    parentMessageID := "msg-1", description := "test task", prompt := "test",
    agent := "explore", status := .running, startedAt := 0,
    concurrencyKey := some "anthropic/claude-opus-4-5" }

/-- Concrete manager state used to witness claim C2. -/
def stW2 : ManagerState :=
  { gate := { defaultConcurrency := 5, limits := [],
              counts := [("anthropic/claude-opus-4-5", 1)], waiters := [] },
    tasks := [("task-1", taskW2)] }

/-- Witness for claim C2 at the concrete state `stW2`: the first completion
returns `true` and drops the held count to 0; the second returns `false` and
changes nothing. -/
theorem C2_tryCompleteTask_exactly_once_witness :
    (tryCompleteTask stW2 "task-1" 100).fst = true ∧
    (tryCompleteTask stW2 "task-1" 100).snd.gate.getCount "anthropic/claude-opus-4-5" = 0 ∧
    tryCompleteTask (tryCompleteTask stW2 "task-1" 100).snd "task-1" 200 =
      (false, (tryCompleteTask stW2 "task-1" 100).snd) := by
  have h := C2_tryCompleteTask_exactly_once stW2 "task-1" taskW2
    "anthropic/claude-opus-4-5" 100 200 (by decide) (by decide) (by decide)
    (by decide) (by decide)
  refine ⟨h.1, ?_, h.2.2.2⟩
  rw [h.2.2.1]
  decide

/-- Concrete watchdog configuration for claim C3: `staleTimeoutMs = 180000`,
the minimum-runtime guard left at its 30-second default. -/
def cfgC3 : WatchdogConfig := { staleTimeoutMs := 180000 }

/-- Gate used in the C3 scenarios (nothing held). -/
def gateC3 : ConcurrencyManager := ConcurrencyManager.init 5 []

/-- C3 scenario: a task 20 seconds old that has been idle 200 seconds
(at `now = 1000000`). -/
def taskYoungC3 : BackgroundTask :=
  { id := "task-1", sessionID := "session-1", parentSessionID := "parent-1",
    parentMessageID := "msg-1", description := "Test task", prompt := "Test",
    agent := "test-agent", status := .running, startedAt := 980000,
    progress := some { toolCalls := 0, lastUpdate := 800000 } }

/-- C3 scenario: a task 300 seconds old that has been idle 200 seconds
(at `now = 1000000`). -/
def taskOldC3 : BackgroundTask :=
  { id := "task-3", sessionID := "session-3", parentSessionID := "parent-3",
    parentMessageID := "msg-3", description := "Stale task", prompt := "Test",
    agent := "test-agent", status := .running, startedAt := 700000,
    progress := some { toolCalls := 2, lastUpdate := 800000 } }

/-- Claim C3: a running task is cancelled by the stall watchdog iff both
`idle > staleTimeoutMs` and `age > minRuntimeGuardMs`; the defaults are a
30-second guard and a 3-minute stale timeout; with `staleTimeoutMs = 180000`
a task of age 20s / idle 200s is left running, while a task of age 300s /
idle 200s is cancelled with `completedAt` set and an error containing
"Stale timeout" and the threshold expressed in minutes ("3min"). -/
theorem C3_stall_watchdog :
    (∀ (cfg : WatchdogConfig) (now : Int) (g : ConcurrencyManager)
        (t : BackgroundTask) (p : Progress),
      t.status = .running → t.progress = some p →
      ((watchdogScanTask cfg now g t).snd.status = .cancelled ↔
        (now - p.lastUpdate > cfg.staleTimeoutMs ∧
         now - t.startedAt > cfg.minRuntimeGuardMs))) ∧
    (({} : WatchdogConfig).staleTimeoutMs = 180000 ∧
     ({} : WatchdogConfig).minRuntimeGuardMs = 30000) ∧
    ((watchdogScanTask cfgC3 1000000 gateC3 taskYoungC3).snd.status = .running) ∧
    ((watchdogScanTask cfgC3 1000000 gateC3 taskOldC3).snd.status = .cancelled ∧
     (watchdogScanTask cfgC3 1000000 gateC3 taskOldC3).snd.completedAt = some 1000000 ∧
     (∃ msg, (watchdogScanTask cfgC3 1000000 gateC3 taskOldC3).snd.error = some msg ∧
        (∃ a b, msg = a ++ "Stale timeout" ++ b) ∧
        (∃ c d, msg = c ++ "3min" ++ d))) := by
  refine ⟨?_, ⟨rfl, rfl⟩, by decide, by decide, by decide, ?_⟩
  · intro cfg now g t p hrun hprog
    have hiff : (isStale cfg now t = true) ↔
        (now - p.lastUpdate > cfg.staleTimeoutMs ∧
         now - t.startedAt > cfg.minRuntimeGuardMs) := by
      simp [isStale, hrun, hprog]
    by_cases hs : isStale cfg now t
    · simp [watchdogScanTask, hs, hiff.mp hs]
    · simp [watchdogScanTask, hs, hrun]
      intro hc1
      by_contra hc2
      exact hs (hiff.mpr ⟨hc1, by omega⟩)
  · refine ⟨staleErrorMessage cfgC3, by decide, ⟨"", ": no progress for over 3min", ?_⟩,
      ⟨"Stale timeout: no progress for over ", "", ?_⟩⟩
    · rfl
    · rfl

/-- Witness for claim C3's quantified staleness criterion, instantiated at
the concrete stale scenario `taskOldC3`. -/
theorem C3_stall_watchdog_witness :
    (watchdogScanTask cfgC3 1000000 gateC3 taskOldC3).snd.status = .cancelled ↔
      ((1000000 : Int) - 800000 > cfgC3.staleTimeoutMs ∧
       (1000000 : Int) - 700000 > cfgC3.minRuntimeGuardMs) :=
  C3_stall_watchdog.1 cfgC3 1000000 gateC3 taskOldC3
    { toolCalls := 2, lastTool := none, lastUpdate := 800000 } rfl rfl

/-- Claim C1: on every path that moves a task out of the running state —
completion, watchdog cancellation, and the resume path's re-acquisition —
every gate-slot operation strictly precedes every operation that might block
or hang (the notification prompt, the external abort call); consequently,
with the key at capacity and a waiter queued, the waiter has already been
granted the slot by the time the possibly-never-resolving blocking call
starts, on both the completion and the cancellation path. -/
theorem C1_release_before_blocking :
    (∀ k : String,
      slotOpsPrecedeBlocking (completionTrace k) = true ∧
      slotOpsPrecedeBlocking (watchdogCancelTrace k) = true ∧
      slotOpsPrecedeBlocking (resumeTrace k) = true ∧
      (completionTrace k).any isBlockingEvent = true ∧
      (watchdogCancelTrace k).any isBlockingEvent = true) ∧
    (∀ (g : ConcurrencyManager) (k : String) (w : Nat) (ws : List Nat),
      g.waitersOf k = w :: ws →
      (runUntilBlocking g (completionTrace k)).snd = [w] ∧
      (runUntilBlocking g (watchdogCancelTrace k)).snd = [w]) := by
  refine ⟨fun k => ⟨rfl, rfl, rfl, rfl, rfl⟩, ?_⟩
  intro g k w ws hw
  have hrel : g.release k =
      ({ g with waiters := alist.set g.waiters k ws }, some w) := by
    simp [ConcurrencyManager.release, hw]
  constructor
  · show ((g.release k).fst, [] ++ (g.release k).snd.toList).snd = [w]
    simp [hrel]
  · show ((g.release k).fst, [] ++ (g.release k).snd.toList).snd = [w]
    simp [hrel]

/-- Concrete gate used to witness claim C1: key `"explore"` at capacity 1
with one slot held and waiter token `7` queued. -/
def gateC1 : ConcurrencyManager :=
  { defaultConcurrency := 1, limits := [], counts := [("explore", 1)],
    waiters := [("explore", [7])] }

/-- Witness for claim C1 at the concrete gate `gateC1`: by the time the
blocking call of either termination path starts, waiter `7` has been granted
the released slot. -/
theorem C1_release_before_blocking_witness :
    (runUntilBlocking gateC1 (completionTrace "explore")).snd = [7] ∧
    (runUntilBlocking gateC1 (watchdogCancelTrace "explore")).snd = [7] :=
  C1_release_before_blocking.2 gateC1 "explore" 7 [] (by decide)

/-- Claim C5: `resume` on a session id with no registered task fails with a
not-found error naming that session id; `resume` on a task that is already
running is a no-op returning the unchanged task and registry (the new parent
context and prompt are discarded, and no resume call is forwarded to the
execution collaborator). -/
theorem C5_resume_notfound_and_running_noop (st : MockState) (now : Int)
    (input : ResumeInput) :
    (st.findBySession input.sessionId = none →
      st.resume now input =
        .error ("Task not found for session: " ++ input.sessionId)) ∧
    (∀ t, st.findBySession input.sessionId = some t → t.status = .running →
      st.resume now input = .ok (st, t)) := by
  constructor
  · intro hnone
    simp [MockState.resume, hnone]
  · intro t hfind hrun
    simp [MockState.resume, hfind, hrun]

/-- Concrete running task used to witness claim C5. -/
def taskC5 : BackgroundTask :=
  { id := "task-a", sessionID := "session-a", parentSessionID := "session-parent",
    parentMessageID := "mock-message-id", description := "test task",
    prompt := "test prompt", agent := "test-agent", status := .running,
    startedAt := 0 }

/-- Concrete registry used to witness claim C5, holding only `taskC5`. -/
def stC5 : MockState :=
  { tasks := [("task-a", taskC5)], notifications := [], resumeCalls := [] }

/-- Witness for claim C5: resuming the unknown session `"non-existent"`
fails naming it, and resuming the running `"session-a"` returns the
unchanged task and registry. -/
theorem C5_resume_witness :
    stC5.resume 50 { sessionId := "non-existent", prompt := "continue",
                     parentSessionID := "session-new", parentMessageID := "msg-new" } =
      .error "Task not found for session: non-existent" ∧
    stC5.resume 50 { sessionId := "session-a", prompt := "resume should be ignored",
                     parentSessionID := "new-parent", parentMessageID := "new-msg" } =
      .ok (stC5, taskC5) := by
  constructor
  · exact (C5_resume_notfound_and_running_noop stC5 50
      { sessionId := "non-existent", prompt := "continue",
        parentSessionID := "session-new", parentMessageID := "msg-new" }).1 (by decide)
  · exact (C5_resume_notfound_and_running_noop stC5 50
      { sessionId := "session-a", prompt := "resume should be ignored",
        parentSessionID := "new-parent", parentMessageID := "new-msg" }).2 taskC5
      (by decide) rfl

/-- Claim C6: resuming a terminal task re-acquires the admission gate on the
task's previously stored concurrency key (a task without one resumes without
re-acquiring), after which the task again holds that key as its
`concurrencyKey`; it clears `completedAt` and `error`, resets the status to
running, overwrites the parent context with the caller's, and preserves id,
execution session id, description, agent and the accumulated
`progress.toolCalls`. -/
theorem C6_resume_reacquire_and_reset (st : ManagerState) (now : Int)
    (input : ResumeInput) (t : BackgroundTask) (p : Progress)
    (hfind : (st.tasks.map Prod.snd).find? (fun x => x.sessionID == input.sessionId) = some t)
    (hterm : t.status ≠ .running)
    (hprog : t.progress = some p) :
    (∀ k, t.concurrencyGroup = some k →
      st.gate.getCount k < (st.gate.capacityOf k : Int) →
      ∃ st' t', resumeManager st now input = .ok (st', t') ∧
        t'.concurrencyKey = some k ∧
        st'.gate.getCount k = st.gate.getCount k + 1 ∧
        t'.completedAt = none ∧ t'.error = none ∧ t'.status = .running ∧
        t'.parentSessionID = input.parentSessionID ∧
        t'.parentMessageID = input.parentMessageID ∧
        t'.parentModel = input.parentModel ∧
        t'.id = t.id ∧ t'.sessionID = t.sessionID ∧
        t'.description = t.description ∧ t'.agent = t.agent ∧
        t'.progress.map Progress.toolCalls = some p.toolCalls) ∧
    (t.concurrencyGroup = none →
      ∃ st' t', resumeManager st now input = .ok (st', t') ∧
        st'.gate = st.gate ∧ t'.concurrencyKey = none ∧
        t'.completedAt = none ∧ t'.error = none ∧ t'.status = .running ∧
        t'.parentSessionID = input.parentSessionID ∧
        t'.parentMessageID = input.parentMessageID ∧
        t'.parentModel = input.parentModel ∧
        t'.id = t.id ∧ t'.sessionID = t.sessionID ∧
        t'.description = t.description ∧ t'.agent = t.agent ∧
        t'.progress.map Progress.toolCalls = some p.toolCalls) := by
  constructor
  · intro k hkey hcap
    have hacq : st.gate.acquire k 0 =
        ({ st.gate with counts := alist.set st.gate.counts k (st.gate.getCount k + 1) },
          true) := by
      simp [ConcurrencyManager.acquire, hcap]
    refine ⟨{ gate := (st.gate.acquire k 0).fst,
              tasks := alist.set st.tasks t.id (resumedTask t now input) },
            resumedTask t now input, ?_, ?_, ?_, rfl, rfl, rfl, rfl, rfl, rfl, rfl,
            rfl, rfl, rfl, ?_⟩
    · simp [resumeManager, hfind, hterm, hkey]
    · simp [resumedTask, hkey]
    · simp [hacq, ConcurrencyManager.getCount, alist.get?_set_self]
    · simp [resumedTask, hprog]
  · intro hkey
    refine ⟨{ gate := st.gate,
              tasks := alist.set st.tasks t.id (resumedTask t now input) },
            resumedTask t now input, ?_, rfl, ?_, rfl, rfl, rfl, rfl, rfl, rfl, rfl,
            rfl, rfl, rfl, ?_⟩
    · simp [resumeManager, hfind, hterm, hkey]
    · simp [resumedTask, hkey]
    · simp [resumedTask, hprog]

/-- Concrete completed task used to witness claim C6: it previously held the
admission key `"external-key"` (remembered in `concurrencyGroup`). -/
def taskC6 : BackgroundTask :=
  { id := "task-1", sessionID := "session-1", parentSessionID := "parent-session",
    parentMessageID := "msg-1", description := "external task", prompt := "",
    agent := "delegate_task", status := .completed, startedAt := 0,
    completedAt := some 10, concurrencyGroup := some "external-key",
    progress := some { toolCalls := 3, lastUpdate := 10 } }

/-- Concrete manager state used to witness claim C6 (fresh gate of default
capacity 1, one completed task). -/
def stC6 : ManagerState :=
  { gate := ConcurrencyManager.init 1 [], tasks := [("task-1", taskC6)] }

/-- The resume input used to witness claim C6. -/
def inputC6 : ResumeInput :=
  { sessionId := "session-1", prompt := "resume",
    parentSessionID := "parent-session-2", parentMessageID := "msg-2" }

/-- Witness for claim C6 at the concrete state `stC6`: the resume re-acquires
`"external-key"`, the task holds the key again, the state resets, and
identity plus `progress.toolCalls` survive. -/
theorem C6_resume_reacquire_and_reset_witness :
    ∃ st' t', resumeManager stC6 20 inputC6 = .ok (st', t') ∧
      t'.concurrencyKey = some "external-key" ∧
      st'.gate.getCount "external-key" = stC6.gate.getCount "external-key" + 1 ∧
      t'.completedAt = none ∧ t'.error = none ∧ t'.status = .running ∧
      t'.parentSessionID = "parent-session-2" ∧
      t'.parentMessageID = "msg-2" ∧
      t'.parentModel = none ∧
      t'.id = "task-1" ∧ t'.sessionID = "session-1" ∧
      t'.description = "external task" ∧ t'.agent = "delegate_task" ∧
      t'.progress.map Progress.toolCalls = some 3 :=
  (C6_resume_reacquire_and_reset stC6 20 inputC6 taskC6
    { toolCalls := 3, lastTool := none, lastUpdate := 10 }
    (by decide) (by decide) rfl).1 "external-key" rfl (by decide)

/-- Counterexample task for claim C7: it stores `parentAgent = "FallbackAgent"`. -/
def taskC7 : BackgroundTask :=
  { id := "task-7", sessionID := "session-child", parentSessionID := "session-parent",
    parentMessageID := "msg-parent", description := "task fallback agent",
    prompt := "test", agent := "explore", status := .completed, startedAt := 0,
    completedAt := some 1, parentAgent := some "FallbackAgent" }

/-- Counterexample live message for claim C7: no agent, but a fully specified
model. -/
def cmC7 : CurrentMessage :=
  { agent := none,
    model := some { providerID := some "anthropic", modelID := some "claude-opus" } }

/-- Claim C7 counterexample: when the live message has no agent but a fully
specified model, the body's agent falls back to the stored `parentAgent` and
the body nevertheless carries the live model — the claim requires the model
to be omitted entirely whenever the agent falls back to `parentAgent`. -/
theorem C7_counterexample :
    (buildNotificationPromptBody taskC7 (some cmC7)).agent = some "FallbackAgent" ∧
    (buildNotificationPromptBody taskC7 (some cmC7)).model =
      some { providerID := "anthropic", modelID := "claude-opus" } ∧
    (buildNotificationPromptBody taskC7 (some cmC7)).model ≠ none := by
  refine ⟨rfl, rfl, by decide⟩

/-- Claim C7 as amended: the body resolves agent and model independently —
the agent is the live message's agent when present, otherwise the stored
`parentAgent` (otherwise absent); the model key is present exactly when the
live message's model is fully specified (both `providerID` and `modelID`
present and non-empty), and is then that model — so the body never contains
a partially specified model. -/
theorem C7_amended_agent_model_resolution (task : BackgroundTask)
    (cm : Option CurrentMessage) :
    (∀ a, cm.bind CurrentMessage.agent = some a →
      (buildNotificationPromptBody task cm).agent = some a) ∧
    (cm.bind CurrentMessage.agent = none →
      (buildNotificationPromptBody task cm).agent = task.parentAgent) ∧
    (∀ mr, (buildNotificationPromptBody task cm).model = some mr →
      ∃ m, cm.bind CurrentMessage.model = some m ∧
        m.providerID = some mr.providerID ∧ m.modelID = some mr.modelID ∧
        mr.providerID ≠ "" ∧ mr.modelID ≠ "") ∧
    (∀ m, cm.bind CurrentMessage.model = some m →
      (m.providerID = none ∨ m.modelID = none) →
      (buildNotificationPromptBody task cm).model = none) ∧
    (∀ m p mid, cm.bind CurrentMessage.model = some m →
      m.providerID = some p → m.modelID = some mid → p ≠ "" → mid ≠ "" →
      (buildNotificationPromptBody task cm).model =
        some { providerID := p, modelID := mid }) ∧
    (∀ m p mid, cm.bind CurrentMessage.model = some m →
      m.providerID = some p → m.modelID = some mid → (p = "" ∨ mid = "") →
      (buildNotificationPromptBody task cm).model = none) ∧
    (cm.bind CurrentMessage.model = none →
      (buildNotificationPromptBody task cm).model = none) := by
  refine ⟨?_, ?_, ?_, ?_, ?_, ?_, ?_⟩
  · intro a ha
    simp [buildNotificationPromptBody, ha]
  · intro ha
    simp [buildNotificationPromptBody, ha]
  · intro mr hmr
    rcases hm : cm.bind CurrentMessage.model with _ | m
    · simp [buildNotificationPromptBody, hm] at hmr
    · rcases hp : m.providerID with _ | p
      · simp [buildNotificationPromptBody, hm, hp] at hmr
      · rcases hq : m.modelID with _ | q
        · simp [buildNotificationPromptBody, hm, hp, hq] at hmr
        · by_cases he : p = "" ∨ q = ""
          · simp [buildNotificationPromptBody, hm, hp, hq, he] at hmr
          · simp [buildNotificationPromptBody, hm, hp, hq, he] at hmr
            push_neg at he
            subst hmr
            exact ⟨m, rfl, hp, hq, he.1, he.2⟩
  · intro m hm hpartial
    rcases hpartial with hp | hq
    · simp [buildNotificationPromptBody, hm, hp]
    · rcases hp : m.providerID with _ | p
      · simp [buildNotificationPromptBody, hm, hp]
      · simp [buildNotificationPromptBody, hm, hp, hq]
  · intro m p mid hm hp hq hpne hqne
    have hne : ¬ (p = "" ∨ mid = "") := by
      rintro (h | h)
      · exact hpne h
      · exact hqne h
    simp [buildNotificationPromptBody, hm, hp, hq, hne]
  · intro m p mid hm hp hq he
    simp [buildNotificationPromptBody, hm, hp, hq, he]
  · intro hm
    simp [buildNotificationPromptBody, hm]

/-- Live message with only a provider and no model name, used to witness the
amended claim C7. -/
def cmC7partial : CurrentMessage :=
  { agent := some "Sisyphus", model := some { providerID := some "anthropic" } }

/-- Live message whose model carries an empty-string provider (falsy in the
source's truthiness check), used to witness the amended claim C7. -/
def cmC7empty : CurrentMessage :=
  { agent := some "Sisyphus",
    model := some { providerID := some "", modelID := some "claude-opus" } }

/-- Witness for the amended claim C7: at `cmC7` the agent falls back to the
stored `parentAgent` while the fully specified live model is still passed;
at the partially specified `cmC7partial` and at the empty-string
`cmC7empty` the model is omitted. -/
theorem C7_amended_agent_model_resolution_witness :
    (buildNotificationPromptBody taskC7 (some cmC7)).agent = taskC7.parentAgent ∧
    (buildNotificationPromptBody taskC7 (some cmC7)).model =
      some { providerID := "anthropic", modelID := "claude-opus" } ∧
    (buildNotificationPromptBody taskC7 (some cmC7partial)).model = none ∧
    (buildNotificationPromptBody taskC7 (some cmC7empty)).model = none :=
  ⟨(C7_amended_agent_model_resolution taskC7 (some cmC7)).2.1 rfl,
   (C7_amended_agent_model_resolution taskC7 (some cmC7)).2.2.2.2.1
     { providerID := some "anthropic", modelID := some "claude-opus" }
     "anthropic" "claude-opus" rfl rfl rfl (by decide) (by decide),
   (C7_amended_agent_model_resolution taskC7 (some cmC7partial)).2.2.2.1
     { providerID := some "anthropic", modelID := none } rfl (Or.inr rfl),
   (C7_amended_agent_model_resolution taskC7 (some cmC7empty)).2.2.2.2.2.1
     { providerID := some "", modelID := some "claude-opus" }
     "" "claude-opus" rfl rfl rfl (Or.inl rfl)⟩

/-- A task reachable from session `s` by one or more hops along the
`parentSessionID` edge of the registry. -/
inductive ReachableTask (st : MockState) : String → BackgroundTask → Prop where
  | direct {s : String} {t : BackgroundTask} :
      t ∈ st.taskValues → t.parentSessionID = s → ReachableTask st s t
  | step {s : String} {c t : BackgroundTask} :
      c ∈ st.taskValues → c.parentSessionID = s →
      ReachableTask st c.sessionID t → ReachableTask st s t

theorem mem_getTasksByParentSession (st : MockState) (s : String) (t : BackgroundTask) :
    t ∈ st.getTasksByParentSession s ↔ t ∈ st.taskValues ∧ t.parentSessionID = s := by
  simp [MockState.getTasksByParentSession]

theorem gadtStep_spec (rec : String → Option (List BackgroundTask))
    (cs : List BackgroundTask)
    (h : ∀ c ∈ cs, (rec c.sessionID).isSome) :
    ∃ l, gadtStep rec cs = some l ∧
      ∀ t, (t ∈ l ↔ ∃ c ∈ cs, t = c ∨ ∃ d, rec c.sessionID = some d ∧ t ∈ d) := by
  induction cs with
  | nil => exact ⟨[], rfl, by simp⟩
  | cons c cs ih =>
    obtain ⟨d, hd⟩ := Option.isSome_iff_exists.mp (h c (by simp))
    obtain ⟨l, hl, hmem⟩ := ih (fun c' hc' => h c' (by simp [hc']))
    refine ⟨c :: (d ++ l), by simp [gadtStep, hd, hl], ?_⟩
    intro t
    simp only [List.mem_cons, List.mem_append, hmem]
    constructor
    · rintro (rfl | htd | ⟨c', hc', hcase⟩)
      · exact ⟨t, Or.inl rfl, Or.inl rfl⟩
      · exact ⟨c, Or.inl rfl, Or.inr ⟨d, hd, htd⟩⟩
      · exact ⟨c', Or.inr hc', hcase⟩
    · rintro ⟨c', hc', hcase⟩
      rcases hc' with rfl | hc'
      · rcases hcase with rfl | ⟨d', hd', htd⟩
        · exact Or.inl rfl
        · rw [hd] at hd'
          obtain rfl := Option.some.inj hd'
          exact Or.inr (Or.inl htd)
      · exact Or.inr (Or.inr ⟨c', hc', hcase⟩)

/-- With a rank function witnessing that every parent-edge descends (the
registry is acyclic), enough fuel makes the source recursion terminate and
its result is exactly the set of reachable tasks. -/
theorem getAllDescendantTasks_spec (st : MockState) (μ : String → Nat)
    (hμ : ∀ t ∈ st.taskValues, μ t.sessionID < μ t.parentSessionID) :
    ∀ fuel s, μ s < fuel →
      ∃ l, getAllDescendantTasks fuel st s = some l ∧
        ∀ t, (t ∈ l ↔ ReachableTask st s t) := by
  intro fuel
  induction fuel with
  | zero => intro s h; omega
  | succ n ih =>
    intro s hs
    have hchild : ∀ c ∈ st.getTasksByParentSession s,
        (getAllDescendantTasks n st c.sessionID).isSome := by
      intro c hc
      obtain ⟨hcv, hcp⟩ := (mem_getTasksByParentSession st s c).mp hc
      have h1 : μ c.sessionID < μ s := hcp ▸ hμ c hcv
      obtain ⟨l, hl, _⟩ := ih c.sessionID (by omega)
      simp [hl]
    obtain ⟨l, hl, hmem⟩ := gadtStep_spec _ _ hchild
    refine ⟨l, by simpa [getAllDescendantTasks] using hl, ?_⟩
    intro t
    rw [hmem t]
    constructor
    · rintro ⟨c, hc, hcase⟩
      obtain ⟨hcv, hcp⟩ := (mem_getTasksByParentSession st s c).mp hc
      rcases hcase with rfl | ⟨d, hd, htd⟩
      · exact ReachableTask.direct hcv hcp
      · have h1 : μ c.sessionID < μ s := hcp ▸ hμ c hcv
        obtain ⟨l', hl', hmem'⟩ := ih c.sessionID (by omega)
        rw [hl'] at hd
        obtain rfl := Option.some.inj hd
        exact ReachableTask.step hcv hcp ((hmem' t).mp htd)
    · intro hr
      cases hr with
      | direct hcv hcp =>
        exact ⟨t, (mem_getTasksByParentSession st s t).mpr ⟨hcv, hcp⟩, Or.inl rfl⟩
      | step hcv hcp hrt =>
        rename_i c
        have h1 : μ c.sessionID < μ s := hcp ▸ hμ c hcv
        obtain ⟨l', hl', hmem'⟩ := ih c.sessionID (by omega)
        exact ⟨c, (mem_getTasksByParentSession st s c).mpr ⟨hcv, hcp⟩,
          Or.inr ⟨l', hl', (hmem' t).mpr hrt⟩⟩

/-- Claim C8: over an acyclic registry (witnessed by a rank function on
session ids), `getTasksByParentSession` returns exactly the direct one-hop
children, `getAllDescendantTasks` returns exactly the tasks reachable by one
or more `parentSessionID` hops (excluding every unrelated subtree), and a
session with no children yields the empty list. -/
theorem C8_descendant_closure (st : MockState) (μ : String → Nat)
    (hμ : ∀ t ∈ st.taskValues, μ t.sessionID < μ t.parentSessionID)
    (s : String) (fuel : Nat) (hfuel : μ s < fuel) :
    (∀ t, t ∈ st.getTasksByParentSession s ↔
      t ∈ st.taskValues ∧ t.parentSessionID = s) ∧
    (∃ l, getAllDescendantTasks fuel st s = some l ∧
      ∀ t, (t ∈ l ↔ ReachableTask st s t)) ∧
    ((∀ t ∈ st.taskValues, t.parentSessionID ≠ s) →
      getAllDescendantTasks fuel st s = some []) := by
  refine ⟨fun t => mem_getTasksByParentSession st s t,
    getAllDescendantTasks_spec st μ hμ fuel s hfuel, ?_⟩
  intro hnone
  obtain ⟨n, rfl⟩ : ∃ n, fuel = n + 1 := ⟨fuel - 1, by omega⟩
  have hempty : st.getTasksByParentSession s = [] := by
    simp only [MockState.getTasksByParentSession]
    rw [List.filter_eq_nil_iff]
    intro t ht
    simp [hnone t ht]
  simp [getAllDescendantTasks, hempty, gadtStep]

/-- Chain registry A→B→C→D used to witness claim C8: task B under session A,
task C under B's session, task D under C's session. -/
def chainTaskB : BackgroundTask :=
  { id := "task-b", sessionID := "session-b", parentSessionID := "session-a",
    parentMessageID := "mock-message-id", description := "test task",
    prompt := "test prompt", agent := "test-agent", status := .running,
    startedAt := 0 }

/-- Chain registry task C (child of B's session). -/
def chainTaskC : BackgroundTask :=
  { chainTaskB with
    id := "task-c"
    sessionID := "session-c"
    parentSessionID := "session-b" }

/-- Chain registry task D (child of C's session). -/
def chainTaskD : BackgroundTask :=
  { chainTaskB with
    id := "task-d"
    sessionID := "session-d"
    parentSessionID := "session-c" }

/-- The chain registry A→B→C→D. -/
def chainSt : MockState :=
  { tasks := [("task-b", chainTaskB), ("task-c", chainTaskC), ("task-d", chainTaskD)],
    notifications := [], resumeCalls := [] }

/-- Rank function witnessing that the chain registry is acyclic. -/
def muChain : String → Nat := fun s =>
  if s = "session-a" then 3
  else if s = "session-b" then 2
  else if s = "session-c" then 1
  else 0

/-- Witness for claim C8 on the concrete chain A→B→C→D: the computation
terminates with exactly `[B, C, D]`, the reachable set. -/
theorem C8_descendant_closure_witness :
    (∃ l, getAllDescendantTasks 4 chainSt "session-a" = some l ∧
      ∀ t, (t ∈ l ↔ ReachableTask chainSt "session-a" t)) ∧
    getAllDescendantTasks 4 chainSt "session-a" =
      some [chainTaskB, chainTaskC, chainTaskD] :=
  ⟨(C8_descendant_closure chainSt muChain (by decide) "session-a" 4 (by decide)).2.1,
   rfl⟩

/-- An accidentally self-parented task (its `parentSessionID` equals its own
`sessionID`), the degenerate case of claim C10. -/
def selfTask : BackgroundTask :=
  { id := "task-self", sessionID := "session-s", parentSessionID := "session-s",
    parentMessageID := "m", description := "self-parented", prompt := "p",
    agent := "a", status := .running, startedAt := 0 }

/-- Registry containing only the self-parented task. -/
def selfSt : MockState :=
  { tasks := [("task-self", selfTask)], notifications := [], resumeCalls := [] }

/-- Claim C10 fails on the code: on the self-parented registry the source
recursion of `getAllDescendantTasks` never terminates — no amount of fuel
produces a value (the JavaScript original overflows the stack). -/
theorem C10_self_parent_divergence :
    ∀ fuel, getAllDescendantTasks fuel selfSt "session-s" = none := by
  intro fuel
  induction fuel with
  | zero => rfl
  | succ n ih =>
    have hch : selfSt.getTasksByParentSession "session-s" = [selfTask] := rfl
    simp [getAllDescendantTasks, hch, gadtStep, selfTask, ih]

/-! ### Retention pruner: closed form

The two imperative loops of `pruneStaleTasksAndNotifications` are
characterised against a closed form: filtering each queue and dropping the
queues that become empty (`scrubQueues`), and summing the per-queue counts of
dropped entries (`queueDropCount`). -/

/-- Filter every notification queue by `p`, deleting queues that become
empty. -/
def scrubQueues (p : BackgroundTask → Bool) :
    List (String × List BackgroundTask) → List (String × List BackgroundTask)
  | [] => []
  | (sid, q) :: rest =>
    let f := q.filter p
    if f.isEmpty then scrubQueues p rest else (sid, f) :: scrubQueues p rest

/-- Total over all queues of how many entries survive filter `a` but not
filter `b`. -/
def queueDropCount (a b : BackgroundTask → Bool)
    (l : List (String × List BackgroundTask)) : Nat :=
  (l.map (fun q => (q.snd.filter a).length - (q.snd.filter b).length)).sum

theorem clearNotificationsForTask_eq_scrub (taskId : String) :
    ∀ notifs, clearNotificationsForTask notifs taskId =
      scrubQueues (fun t => t.id ≠ taskId) notifs
  | [] => rfl
  | (sid, q) :: rest => by
    have ih := clearNotificationsForTask_eq_scrub taskId rest
    simp only [clearNotificationsForTask, scrubQueues, ih]

theorem scrubQueues_cons (p : BackgroundTask → Bool) (sid : String)
    (q : List BackgroundTask) (rest : List (String × List BackgroundTask)) :
    scrubQueues p ((sid, q) :: rest) =
      if (q.filter p).isEmpty then scrubQueues p rest
      else (sid, q.filter p) :: scrubQueues p rest := by
  simp only [scrubQueues]

theorem queueDropCount_cons (a b : BackgroundTask → Bool) (sid : String)
    (q : List BackgroundTask) (rest : List (String × List BackgroundTask)) :
    queueDropCount a b ((sid, q) :: rest) =
      ((q.filter a).length - (q.filter b).length) + queueDropCount a b rest := by
  simp [queueDropCount]

theorem filter_filter_comm {α : Type} (p q : α → Bool) (l : List α) :
    (l.filter p).filter q = l.filter (fun t => p t && q t) := by
  rw [List.filter_filter]
  have h : (fun t => q t && p t) = (fun t => p t && q t) :=
    funext fun t => Bool.and_comm _ _
  rw [h]

theorem scrubQueues_scrubQueues (p q : BackgroundTask → Bool) :
    ∀ l, scrubQueues q (scrubQueues p l) = scrubQueues (fun t => p t && q t) l
  | [] => rfl
  | (sid, ql) :: rest => by
    have ih := scrubQueues_scrubQueues p q rest
    have hff := filter_filter_comm p q ql
    by_cases hp : (ql.filter p).isEmpty
    · have hpl : ql.filter p = [] := by simpa [List.isEmpty_iff] using hp
      have hpq : (ql.filter (fun t => p t && q t)).isEmpty := by
        rw [← hff, hpl]; rfl
      rw [scrubQueues_cons, if_pos hp, scrubQueues_cons, if_pos hpq, ih]
    · rw [scrubQueues_cons p, if_neg hp, scrubQueues_cons q, scrubQueues_cons, hff, ih]

theorem queueDropCount_scrub (p a b : BackgroundTask → Bool) :
    ∀ l, queueDropCount a b (scrubQueues p l) =
      queueDropCount (fun t => p t && a t) (fun t => p t && b t) l
  | [] => rfl
  | (sid, ql) :: rest => by
    have ih := queueDropCount_scrub p a b rest
    have hfa := filter_filter_comm p a ql
    have hfb := filter_filter_comm p b ql
    by_cases hp : (ql.filter p).isEmpty
    · have hpl : ql.filter p = [] := by simpa [List.isEmpty_iff] using hp
      have h0a : ql.filter (fun t => p t && a t) = [] := by rw [← hfa, hpl]; rfl
      have h0b : ql.filter (fun t => p t && b t) = [] := by rw [← hfb, hpl]; rfl
      rw [scrubQueues_cons, if_pos hp, queueDropCount_cons, h0a, h0b, ih]
      simp
    · rw [scrubQueues_cons, if_neg hp, queueDropCount_cons, queueDropCount_cons,
        hfa, hfb, ih]

theorem pruneTasksLoop_eq (now : Int) :
    ∀ (ts : List (String × BackgroundTask)) (notifs : List (String × List BackgroundTask)),
    pruneTasksLoop now ts notifs =
      (ts.filter (fun e => now - e.snd.startedAt ≤ TASK_TTL_MS),
       ((ts.filter (fun e => now - e.snd.startedAt > TASK_TTL_MS)).map Prod.fst).foldl
         clearNotificationsForTask notifs,
       (ts.filter (fun e => now - e.snd.startedAt > TASK_TTL_MS)).map Prod.fst)
  | [], _ => rfl
  | (id, t) :: ts, notifs => by
    by_cases h : now - t.startedAt > TASK_TTL_MS
    · have hk : ¬ (now - t.startedAt ≤ TASK_TTL_MS) := by omega
      have ih := pruneTasksLoop_eq now ts (clearNotificationsForTask notifs id)
      simp only [pruneTasksLoop, List.filter_cons]
      simp [h, hk, ih]
    · have hk : now - t.startedAt ≤ TASK_TTL_MS := by omega
      have ih := pruneTasksLoop_eq now ts notifs
      simp only [pruneTasksLoop, List.filter_cons]
      simp [h, hk, ih]

theorem pruneNotifsLoop_cons (now : Int) (sid : String) (q : List BackgroundTask)
    (rest : List (String × List BackgroundTask)) :
    pruneNotifsLoop now ((sid, q) :: rest) =
      if q.isEmpty then pruneNotifsLoop now rest
      else
        if (q.filter (fun t => now - t.startedAt ≤ TASK_TTL_MS)).isEmpty then
          ((pruneNotifsLoop now rest).1,
           (pruneNotifsLoop now rest).2 +
             (q.length - (q.filter (fun t => now - t.startedAt ≤ TASK_TTL_MS)).length))
        else
          ((sid, q.filter (fun t => now - t.startedAt ≤ TASK_TTL_MS)) ::
             (pruneNotifsLoop now rest).1,
           (pruneNotifsLoop now rest).2 +
             (q.length - (q.filter (fun t => now - t.startedAt ≤ TASK_TTL_MS)).length)) :=
  rfl

theorem pruneNotifsLoop_eq (now : Int) :
    ∀ l, pruneNotifsLoop now l =
      (scrubQueues (fun t => now - t.startedAt ≤ TASK_TTL_MS) l,
       queueDropCount (fun _ => true) (fun t => now - t.startedAt ≤ TASK_TTL_MS) l)
  | [] => rfl
  | (sid, q) :: rest => by
    have ih := pruneNotifsLoop_eq now rest
    by_cases h0 : q.isEmpty
    · have hq : q = [] := by simpa [List.isEmpty_iff] using h0
      subst hq
      rw [pruneNotifsLoop_cons]
      simp [scrubQueues_cons, queueDropCount_cons, ih]
    · by_cases h1 : (q.filter (fun t => now - t.startedAt ≤ TASK_TTL_MS)).isEmpty
      · rw [pruneNotifsLoop_cons, if_neg h0, if_pos h1, ih, scrubQueues_cons,
          if_pos h1, queueDropCount_cons, List.filter_true]
        simp [Nat.add_comm]
      · rw [pruneNotifsLoop_cons, if_neg h0, if_neg h1, ih, scrubQueues_cons,
          if_neg h1, queueDropCount_cons, List.filter_true]
        simp [Nat.add_comm]

theorem scrub_foldl_clear (now : Int) :
    ∀ (ids : List String) (notifs : List (String × List BackgroundTask)),
    scrubQueues (fun t => now - t.startedAt ≤ TASK_TTL_MS)
        (ids.foldl clearNotificationsForTask notifs) =
    scrubQueues (fun t => !(ids.contains t.id) &&
        (now - t.startedAt ≤ TASK_TTL_MS)) notifs
  | [], notifs => by
    have hfun : (fun t : BackgroundTask => !((([] : List String)).contains t.id) &&
        (decide (now - t.startedAt ≤ TASK_TTL_MS))) =
        (fun t : BackgroundTask => decide (now - t.startedAt ≤ TASK_TTL_MS)) :=
      funext fun t => rfl
    rw [List.foldl_nil, hfun]
  | id :: ids, notifs => by
    have ih := scrub_foldl_clear now ids (clearNotificationsForTask notifs id)
    rw [List.foldl_cons, ih, clearNotificationsForTask_eq_scrub, scrubQueues_scrubQueues]
    have hfun : (fun t : BackgroundTask => decide (t.id ≠ id) &&
        (!(ids.contains t.id) && decide (now - t.startedAt ≤ TASK_TTL_MS))) =
        (fun t : BackgroundTask => !(((id :: ids)).contains t.id) &&
          decide (now - t.startedAt ≤ TASK_TTL_MS)) := by
      funext t
      by_cases h : t.id = id <;> simp [h]
    show scrubQueues (fun t => decide (t.id ≠ id) &&
        (!(ids.contains t.id) && decide (now - t.startedAt ≤ TASK_TTL_MS))) notifs = _
    rw [hfun]

theorem count_foldl_clear (now : Int) :
    ∀ (ids : List String) (notifs : List (String × List BackgroundTask)),
    queueDropCount (fun _ => true) (fun t => now - t.startedAt ≤ TASK_TTL_MS)
        (ids.foldl clearNotificationsForTask notifs) =
    queueDropCount (fun t => !(ids.contains t.id))
        (fun t => !(ids.contains t.id) && (now - t.startedAt ≤ TASK_TTL_MS)) notifs
  | [], notifs => by
    have h1 : (fun t : BackgroundTask => !((([] : List String)).contains t.id)) =
        (fun _ : BackgroundTask => true) := funext fun t => rfl
    have h2 : (fun t : BackgroundTask => !((([] : List String)).contains t.id) &&
        (decide (now - t.startedAt ≤ TASK_TTL_MS))) =
        (fun t : BackgroundTask => decide (now - t.startedAt ≤ TASK_TTL_MS)) :=
      funext fun t => rfl
    rw [List.foldl_nil, h1, h2]
  | id :: ids, notifs => by
    have ih := count_foldl_clear now ids (clearNotificationsForTask notifs id)
    rw [List.foldl_cons, ih, clearNotificationsForTask_eq_scrub, queueDropCount_scrub]
    have h1 : (fun t : BackgroundTask => decide (t.id ≠ id) && !(ids.contains t.id)) =
        (fun t : BackgroundTask => !(((id :: ids)).contains t.id)) := by
      funext t
      by_cases h : t.id = id <;> simp [h]
    have h2 : (fun t : BackgroundTask => decide (t.id ≠ id) &&
        (!(ids.contains t.id) && decide (now - t.startedAt ≤ TASK_TTL_MS))) =
        (fun t : BackgroundTask => !(((id :: ids)).contains t.id) &&
          decide (now - t.startedAt ≤ TASK_TTL_MS)) := by
      funext t
      by_cases h : t.id = id <;> simp [h]
    show queueDropCount (fun t => decide (t.id ≠ id) && !(ids.contains t.id))
        (fun t => decide (t.id ≠ id) &&
          (!(ids.contains t.id) && decide (now - t.startedAt ≤ TASK_TTL_MS))) notifs = _
    rw [h1, h2]

/-- The ids of the tasks the pruner removes at time `now`: exactly those whose
age strictly exceeds the retention window, in registry order. -/
def stalePrunedIds (now : Int) (st : MockState) : List String :=
  (st.tasks.filter (fun e => now - e.snd.startedAt > TASK_TTL_MS)).map Prod.fst

/-- Closed form of the pruner's effect on the notification queues: each queue
keeps exactly the entries whose task was not pruned and whose own age is
within the window; queues left empty are deleted. -/
def expectedNotifications (now : Int) (st : MockState) :
    List (String × List BackgroundTask) :=
  scrubQueues (fun t => !((stalePrunedIds now st).contains t.id) &&
    (now - t.startedAt ≤ TASK_TTL_MS)) st.notifications

/-- Closed form of the pruner's reported notification count: only the entries
dropped by the age sweep — those that survive the task-prune removal but are
older than the window — are counted. -/
def expectedPrunedNotifCount (now : Int) (st : MockState) : Nat :=
  queueDropCount (fun t => !((stalePrunedIds now st).contains t.id))
    (fun t => !((stalePrunedIds now st).contains t.id) &&
      (now - t.startedAt ≤ TASK_TTL_MS)) st.notifications

/-- The stale task of the C9 counterexample (31 minutes old at `nowC9`),
both registered and queued for notification. -/
def taskC9 : BackgroundTask :=
  { id := "task-stale", sessionID := "session-stale",
    parentSessionID := "session-parent", parentMessageID := "m",
    description := "stale", prompt := "p", agent := "a",
    status := .running, startedAt := 0 }

/-- Registry of the C9 counterexample. -/
def stC9 : MockState :=
  { tasks := [("task-stale", taskC9)],
    notifications := [("session-parent", [taskC9])], resumeCalls := [] }

/-- Thirty-one minutes after `taskC9.startedAt`. -/
def nowC9 : Int := 31 * 60 * 1000

/-- Claim C9 counterexample: pruning a task that is both registered and
queued for notification removes the task and its notification (the
notification count drops from 1 to 0), yet the returned
`prunedNotifications` reports 0 — a notification entry removed alongside its
pruned task is not counted. -/
theorem C9_counterexample :
    (stC9.pruneStaleTasksAndNotifications nowC9).2.1 = ["task-stale"] ∧
    stC9.getNotificationCount = 1 ∧
    (stC9.pruneStaleTasksAndNotifications nowC9).1.getNotificationCount = 0 ∧
    (stC9.pruneStaleTasksAndNotifications nowC9).2.2 = 0 := by
  refine ⟨by decide, by decide, by decide, by decide⟩

/-- Claim C9 as amended: the pruner removes exactly the tasks whose age
strictly exceeds the 30-minute window regardless of status, reports their
ids, removes from every queue the notification entries of pruned tasks and
the entries older than the window (deleting queues left empty), leaves
everything younger untouched — and the reported pruned-notification count
covers only the entries dropped by the age sweep, not those removed together
with a pruned task. -/
theorem C9_amended_prune (now : Int) (st : MockState) :
    (st.pruneStaleTasksAndNotifications now).1.tasks =
      st.tasks.filter (fun e => now - e.snd.startedAt ≤ TASK_TTL_MS) ∧
    (st.pruneStaleTasksAndNotifications now).2.1 = stalePrunedIds now st ∧
    (st.pruneStaleTasksAndNotifications now).1.notifications =
      expectedNotifications now st ∧
    (st.pruneStaleTasksAndNotifications now).2.2 = expectedPrunedNotifCount now st ∧
    (st.pruneStaleTasksAndNotifications now).1.resumeCalls = st.resumeCalls := by
  have h1 := pruneTasksLoop_eq now st.tasks st.notifications
  have h2 := pruneNotifsLoop_eq now
    (((st.tasks.filter (fun e => now - e.snd.startedAt > TASK_TTL_MS)).map
      Prod.fst).foldl clearNotificationsForTask st.notifications)
  refine ⟨?_, ?_, ?_, ?_, ?_⟩
  · simp only [MockState.pruneStaleTasksAndNotifications, h1]
  · simp only [MockState.pruneStaleTasksAndNotifications, h1]
    rfl
  · simp only [MockState.pruneStaleTasksAndNotifications, h1, h2]
    exact scrub_foldl_clear now (stalePrunedIds now st) st.notifications
  · simp only [MockState.pruneStaleTasksAndNotifications, h1, h2]
    exact count_foldl_clear now (stalePrunedIds now st) st.notifications
  · rfl
